import Mathlib

/-!
Verification of the multi-provider AI proxy server.

This file gives a shallow embedding of the two core parts of the server:
the per-provider request/response translation layer (server.js) and the
usage-accounting logger (logger.js).  JavaScript numbers are modelled as
rationals, object fields that may be absent as Option, and the handful of
dynamically-typed payload inspections as an explicit JsVal value type.
All definitions are executable.
-/

namespace Proxy

/-- JS `v || d` on an optional string operand: the empty string is falsy and
falls back to the default, as does an absent (undefined) value. -/
def jsOrStr (v : Option String) (d : String) : String :=
  match v with
  | some s => if s = "" then d else s
  | none => d

/-- JS `v || d` on an optional numeric operand: 0 is falsy and falls back to
the default, as does an absent (undefined) value. -/
def jsOrQ (v : Option ℚ) (d : ℚ) : ℚ :=
  match v with
  | some x => if x = 0 then d else x
  | none => d

/-- JS `s.includes(sub)` substring test. -/
def jsIncludes (s sub : String) : Bool :=
  decide (sub.toList <:+: s.toList)

/-- JS `m?.includes(sub)` on a possibly-undefined string: undefined is falsy. -/
def optIncludes (m : Option String) (sub : String) : Bool :=
  match m with
  | some s => jsIncludes s sub
  | none => false

/-! ## Cost calculator and provider detection (logger.js) -/

/-- One row of the per-million-token pricing table: input and output rates. -/
structure ModelPrice where
  input : ℚ
  output : ℚ
deriving Repr, DecidableEq

/-- The static per-million-token pricing table of logger.js calculateCost,
keyed by exact model identifier. -/
def pricing (model : String) : Option ModelPrice :=
  if model = "gpt-4" then some ⟨30, 60⟩
  else if model = "gpt-4o" then some ⟨5, 15⟩
  else if model = "gpt-4o-mini" then some ⟨3/20, 3/5⟩
  else if model = "gpt-5" then some ⟨10, 30⟩
  else if model = "gpt-5.2" then some ⟨12, 36⟩
  else if model = "gpt-5-nano" then some ⟨2, 6⟩
  else if model = "o1-preview" then some ⟨15, 60⟩
  else if model = "o1-mini" then some ⟨3, 12⟩
  else if model = "gpt-3.5-turbo" then some ⟨1/2, 3/2⟩
  else if model = "claude-sonnet-4-20250514" then some ⟨3, 15⟩
  else if model = "claude-3-5-sonnet-20241022" then some ⟨3, 15⟩
  else if model = "claude-3-opus-20240229" then some ⟨15, 75⟩
  else if model = "claude-3-haiku-20240307" then some ⟨1/4, 5/4⟩
  else if model = "gemini-2.5-pro" then some ⟨5/4, 5⟩
  else if model = "gemini-2.0-flash" then some ⟨3/40, 3/10⟩
  else if model = "gemini-1.5-pro" then some ⟨5/4, 5⟩
  else if model = "gemini-1.5-flash" then some ⟨3/40, 3/10⟩
  else none

/-- The provider-level default pricing table of logger.js calculateCost. -/
def defaultPricing (provider : String) : Option ModelPrice :=
  if provider = "openai" then some ⟨5, 15⟩
  else if provider = "anthropic" then some ⟨3, 15⟩
  else if provider = "google" then some ⟨5/4, 5⟩
  else none

/-- Table lookup for a possibly-undefined model identifier (the middleware may
log a request without a model field; a missing key finds no entry). -/
def modelLookup (model : Option String) : Option ModelPrice :=
  match model with
  | some m => pricing m
  | none => none

/-- Token counts as carried by a usage object. -/
structure Usage where
  prompt_tokens : ℚ
  completion_tokens : ℚ
deriving Repr, DecidableEq

/-- logger.js calculateCost: exact-model entry, else provider default, else
the literal OpenAI default rates; zero when no usage object is given. -/
def calculateCost (model : Option String) (usage : Option Usage) (provider : String) : ℚ :=
  match usage with
  | none => 0
  | some u =>
    let modelPricing :=
      match modelLookup model with
      | some p => p
      | none =>
        match defaultPricing provider with
        | some p => p
        | none => { input := 5, output := 15 }
    u.prompt_tokens / 1000000 * modelPricing.input
      + u.completion_tokens / 1000000 * modelPricing.output

/-- logger.js detectProvider: substring tests on the endpoint and on the
possibly-undefined model, with openai as the catch-all. -/
def detectProvider (endpoint : String) (model : Option String) : String :=
  if jsIncludes endpoint "anthropic" || optIncludes model "claude" then
    "anthropic"
  else if jsIncludes endpoint "google" || optIncludes model "gemini" then
    "google"
  else
    "openai"

/-! ## Unified dispatch (server.js, POST /api/unified/chat) -/

/-- Outcome of the unified dispatch switch: either an internal re-route to a
provider handler (which is what performs the external call) or an immediate
400 response carrying the error message, with no external call. -/
inductive DispatchResult where
  | route (path : String)
  | badRequest (message : String)
deriving Repr, DecidableEq

/-- ASCII lower-casing of one character, as JS toLowerCase acts on ASCII. -/
def asciiLowerChar (c : Char) : Char :=
  if 'A' ≤ c ∧ c ≤ 'Z' then Char.ofNat (c.toNat + 32) else c

/-- ASCII lower-casing of a string; JS toLowerCase agrees with this on the
ASCII identifiers the dispatch table compares against. -/
def asciiLower (s : String) : String := String.mk (s.toList.map asciiLowerChar)

/-- The unified chat handler: read the provider field (falsy values default to
openai), lower-case it, and switch over the fixed alias table. -/
def unifiedDispatch (providerField : Option String) : DispatchResult :=
  let provider := jsOrStr providerField "openai"
  let p := asciiLower provider
  if p = "openai" then .route "/api/chat/completions"
  else if p = "anthropic" ∨ p = "claude" then .route "/api/anthropic/messages"
  else if p = "google" ∨ p = "gemini" then .route "/api/google/generateContent"
  else .badRequest ("Unknown provider: " ++ provider)

/-! ## Unified message shapes -/

/-- One element of an OpenAI-style content array: a text part, an image-url
part, or a part of any other type (ignored by the Gemini translation). -/
inductive ContentItem where
  | text (t : String)
  | image (url : String)
  | other
deriving Repr, DecidableEq

/-- Message content: either a plain string or an array of parts. -/
inductive MsgContent where
  | str (s : String)
  | parts (items : List ContentItem)
deriving Repr, DecidableEq

/-- One chat message of the unified request shape. -/
structure ChatMessage where
  role : String
  content : MsgContent
deriving Repr, DecidableEq

/-! ## Anthropic request translation (server.js, POST /api/anthropic/messages) -/

/-- The request body fields read by the Anthropic handler. -/
structure AnthropicBody where
  model : Option String
  max_tokens : Option ℚ
  messages : List ChatMessage
  system : Option String

/-- The payload sent to the Anthropic API. -/
structure AnthropicPayload where
  model : String
  max_tokens : ℚ
  messages : List ChatMessage
  system : Option String

/-- server.js anthropicRequest: defaults for model and max_tokens, and a
verbatim pass-through of the message list and the top-level system field. -/
def anthropicRequest (b : AnthropicBody) : AnthropicPayload :=
  { model := jsOrStr b.model "claude-sonnet-4-20250514"
  , max_tokens := jsOrQ b.max_tokens 4096
  , messages := b.messages
  , system := b.system }

/-! ## Google response translation (server.js, POST /api/google/generateContent) -/

/-- One part of a Gemini candidate content. -/
structure GooglePart where
  text : Option String
deriving Repr, DecidableEq

/-- The content of a Gemini candidate. -/
structure GoogleCandContent where
  parts : Option (List GooglePart)
deriving Repr, DecidableEq

/-- One Gemini candidate. -/
structure GoogleCandidate where
  content : Option GoogleCandContent
  finishReason : Option String
deriving Repr, DecidableEq

/-- Gemini usage metadata. -/
structure GoogleUsageMetadata where
  promptTokenCount : Option ℚ
  candidatesTokenCount : Option ℚ
  totalTokenCount : Option ℚ
deriving Repr, DecidableEq

/-- The Gemini response body fields read by the Google handler. -/
structure GoogleResponse where
  candidates : Option (List GoogleCandidate)
  usageMetadata : Option GoogleUsageMetadata
deriving Repr, DecidableEq

/-- The optional chain candidates?.[0]?.finishReason. -/
def googleCandFinish (r : GoogleResponse) : Option String :=
  (r.candidates.bind List.head?).bind (fun c => c.finishReason)

/-- The optional chain candidates?.[0]?.content?.parts?.[0]?.text with the
final falsy fallback to the empty string. -/
def googleContentText (r : GoogleResponse) : String :=
  jsOrStr ((((r.candidates.bind List.head?).bind
    (fun c => c.content)).bind (fun c => c.parts)).bind List.head? |>.bind (fun p => p.text)) ""

/-- The single unified choice produced from a Gemini response. -/
structure UnifiedChoice where
  content : String
  finish_reason : String
deriving Repr, DecidableEq

/-- server.js transformedResponse for the Google route: the assistant content
and the finish reason, which is stop exactly on the literal STOP and length
in every other case (including an absent value). -/
def googleTransformedChoice (r : GoogleResponse) : UnifiedChoice :=
  { content := googleContentText r
  , finish_reason := if googleCandFinish r = some "STOP" then "stop" else "length" }

/-! ## Gemini request translation (server.js, transformMessagesToGeminiFormat) -/

/-- One part of a Gemini request content entry. -/
inductive GeminiPart where
  | text (t : String)
  | inlineData (mimeType dat : String)
deriving Repr, DecidableEq

/-- One entry of the Gemini request content list. -/
structure GeminiContent where
  role : String
  parts : List GeminiPart
deriving Repr, DecidableEq

/-- JS truthiness of a stored message content (the systemPrompt variable holds
either a string, falsy when empty, or a content array, always truthy). -/
def contentTruthy : MsgContent → Bool
  | .str s => decide (s ≠ "")
  | .parts _ => true

/-- JS template-literal stringification of a stored message content: a string
interpolates as itself, an array joins its elements with commas and each
object element prints as the default object tag. -/
def contentToString : MsgContent → String
  | .str s => s
  | .parts items => String.intercalate "," (items.map fun _ => "[object Object]")

/-- The data-URL pattern match of the image branch, regex
caret data colon bracket-not-semicolon-plus semicolon base64 comma dot-plus
dollar: the MIME type is the nonempty run up to the first semicolon, the
literal base64 marker must follow, and the payload is the nonempty remainder,
which the dot class forbids from containing line terminators. -/
def parseDataUrl (url : String) : Option (String × String) :=
  let cs := url.toList
  if cs.take 5 = "data:".toList then
    let rest := cs.drop 5
    let mime := rest.takeWhile (fun c => c ≠ ';')
    let after := rest.dropWhile (fun c => c ≠ ';')
    if mime ≠ [] ∧ after.take 8 = ";base64,".toList then
      let dat := after.drop 8
      if dat ≠ [] ∧ dat.all (fun c => c ≠ '\n' ∧ c ≠ '\r') then
        some (String.mk mime, String.mk dat)
      else none
    else none
  else none

/-- The inner item loop of transformMessagesToGeminiFormat for an array
content: isUser records whether the enclosing message maps to the user role
and contentsEmpty whether the outer contents list was empty when the message
was reached (the merge guard tests the outer list, which only grows after the
whole message is processed).  Returns the parts together with the possibly
cleared system prompt. -/
def geminiItemsLoop (isUser contentsEmpty : Bool) :
    List ContentItem → MsgContent → List GeminiPart → List GeminiPart × MsgContent
  | [], sysP, parts => (parts, sysP)
  | .text t :: rest, sysP, parts =>
    if isUser && contentTruthy sysP && contentsEmpty then
      geminiItemsLoop isUser contentsEmpty rest (.str "")
        (parts ++ [.text (contentToString sysP ++ "\n\n" ++ t)])
    else
      geminiItemsLoop isUser contentsEmpty rest sysP (parts ++ [.text t])
  | .image url :: rest, sysP, parts =>
    match parseDataUrl url with
    | some (mime, dat) =>
      geminiItemsLoop isUser contentsEmpty rest sysP (parts ++ [.inlineData mime dat])
    | none => geminiItemsLoop isUser contentsEmpty rest sysP parts
  | .other :: rest, sysP, parts => geminiItemsLoop isUser contentsEmpty rest sysP parts

/-- The outer message loop of transformMessagesToGeminiFormat, threading the
mutable systemPrompt variable and the contents accumulator. -/
def geminiLoop : List ChatMessage → MsgContent → List GeminiContent → List GeminiContent
  | [], _, contents => contents
  | msg :: rest, sysP, contents =>
    if msg.role = "system" then
      geminiLoop rest msg.content contents
    else
      let role := if msg.role = "assistant" then "model" else "user"
      match msg.content with
      | .str s =>
        if role = "user" && contentTruthy sysP && contents.isEmpty then
          geminiLoop rest (.str "")
            (contents ++ [⟨role, [.text (contentToString sysP ++ "\n\n" ++ s)]⟩])
        else
          geminiLoop rest sysP (contents ++ [⟨role, [.text s]⟩])
      | .parts items =>
        let r := geminiItemsLoop (role = "user") contents.isEmpty items sysP []
        geminiLoop rest r.2 (contents ++ [⟨role, r.1⟩])

/-- server.js transformMessagesToGeminiFormat. -/
def transformMessagesToGeminiFormat (messages : List ChatMessage) : List GeminiContent :=
  geminiLoop messages (.str "") []

/-- Plain part translation with no system-prompt merging: text parts map
directly, matching data URLs decode, and every other part is dropped.  Used
to state what the loop does once the contents list is nonempty. -/
def geminiPlainParts : List ContentItem → List GeminiPart
  | [] => []
  | .text t :: rest => .text t :: geminiPlainParts rest
  | .image url :: rest =>
    match parseDataUrl url with
    | some (mime, dat) => .inlineData mime dat :: geminiPlainParts rest
    | none => geminiPlainParts rest
  | .other :: rest => geminiPlainParts rest

/-- Plain message translation with no system-prompt merging: system messages
are dropped, assistant maps to model, everything else to user. -/
def geminiPlain : List ChatMessage → List GeminiContent
  | [] => []
  | msg :: rest =>
    if msg.role = "system" then geminiPlain rest
    else
      { role := if msg.role = "assistant" then "model" else "user"
      , parts :=
          match msg.content with
          | .str s => [GeminiPart.text s]
          | .parts items => geminiPlainParts items } :: geminiPlain rest

/-! ## Usage log entries and user summaries (logger.js) -/

/-- The token triple of a usage log entry. -/
structure TokenCounts where
  prompt : ℚ
  completion : ℚ
  total : ℚ
deriving Repr, DecidableEq

/-- One line of the daily usage log. -/
structure LogEntry where
  timestamp : String
  userId : String
  endpoint : String
  provider : String
  model : String
  tokens : TokenCounts
  cost : ℚ
  success : Bool
  error : Option String
deriving Repr, DecidableEq

/-- A per-user summary record.  Counter maps model JS objects used purely as
string-keyed counters with a default of zero. -/
structure UserSummary where
  firstSeen : String
  totalRequests : ℕ
  totalTokens : ℚ
  totalCost : ℚ
  lastSeen : Option String
  endpointCounts : String → ℕ
  modelCounts : String → ℕ
  providerCounts : String → ℕ

/-- Increment one key of a counter map: counts k equals counts k or 0, plus 1. -/
def bump (counts : String → ℕ) (k : String) : String → ℕ :=
  fun x => if x = k then counts k + 1 else counts x

/-- The fresh summary created for a first-seen userId. -/
def freshSummary (e : LogEntry) : UserSummary :=
  { firstSeen := e.timestamp
  , totalRequests := 0
  , totalTokens := 0
  , totalCost := 0
  , lastSeen := none
  , endpointCounts := fun _ => 0
  , modelCounts := fun _ => 0
  , providerCounts := fun _ => 0 }

/-- The increment block of updateUserSummary applied to one summary. -/
def applyEntry (s : UserSummary) (e : LogEntry) : UserSummary :=
  { s with
    totalRequests := s.totalRequests + 1
    totalTokens := s.totalTokens + e.tokens.total
    totalCost := s.totalCost + e.cost
    lastSeen := some e.timestamp
    endpointCounts := bump s.endpointCounts e.endpoint
    modelCounts := bump s.modelCounts e.model
    providerCounts := bump s.providerCounts e.provider }

/-- The persisted summary document: one optional summary per userId. -/
def Summaries : Type := String → Option UserSummary

/-- logger.js updateUserSummary as a pure state transformation on the summary
document: create a fresh summary when the userId is unseen, apply the
increments, and store the result under the userId. -/
def updateUserSummary (summaries : Summaries) (userId : String) (e : LogEntry) : Summaries :=
  let base :=
    match summaries userId with
    | some s => s
    | none => freshSummary e
  fun k => if k = userId then some (applyEntry base e) else summaries k

/-- N sequential non-overlapping updates for one user. -/
def updateAll (st : Summaries) (userId : String) (entries : List LogEntry) : Summaries :=
  entries.foldl (fun acc e => updateUserSummary acc userId e) st

/-! ## Recent-log retrieval (logger.js getRecentLogs) -/

/-- UTC day number of an epoch-millisecond instant, the embedding of the
date-only prefix of toISOString (floor division, also for negative times). -/
def dayIndex (t : Int) : Int := Int.fdiv t 86400000

/-- The on-disk daily log files, keyed by UTC day number: none models a
missing file, and each line is some entry when it parses as a log entry and
none when the line is unparsable JSON. -/
def LogFiles : Type := Int → Option (List (Option LogEntry))

/-- The age filter of getRecentLogs: the timestamp is parsed by the Date
constructor, modelled by the given dateOf function where none models an
invalid date, whose NaN age compares false and excludes the entry. -/
def keepRecent (dateOf : String → Option Int) (now : Int) (hours : ℚ) (e : LogEntry) : Bool :=
  match dateOf e.timestamp with
  | some t => decide ((((now - t : Int) : ℚ)) / 3600000 ≤ hours)
  | none => false

/-- The numeric value the sort comparator obtains from an entry timestamp. -/
def timeValue (dateOf : String → Option Int) (e : LogEntry) : Int :=
  (dateOf e.timestamp).getD 0

/-- The per-file line loop of getRecentLogs: unparsable lines are skipped and
passing entries are pushed onto the accumulator in file order. -/
def collectDay (keep : LogEntry → Bool) : List (Option LogEntry) → List LogEntry → List LogEntry
  | [], logs => logs
  | none :: rest, logs => collectDay keep rest logs
  | some e :: rest, logs => collectDay keep rest (if keep e then logs ++ [e] else logs)

/-- One iteration of the day loop of getRecentLogs: read the daily file,
skipping it when absent, and collect its passing lines. -/
def visitDay (keep : LogEntry → Bool) (files : LogFiles) (d : Int)
    (logs : List LogEntry) : List LogEntry :=
  match files d with
  | some lines => collectDay keep lines logs
  | none => logs

/-- logger.js getRecentLogs: visit the files of today and the two preceding
UTC calendar days in order (a missing file is skipped), collect the parsable
entries within the age window, and sort them by timestamp descending. -/
def getRecentLogs (dateOf : String → Option Int) (files : LogFiles)
    (now : Int) (hours : ℚ) : List LogEntry :=
  ((List.range 3).foldl
    (fun (logs : List LogEntry) (i : ℕ) => visitDay (keepRecent dateOf now hours) files
      (dayIndex (now - (i : Int) * 86400000)) logs) []).mergeSort
    (fun a b => decide (timeValue dateOf b ≤ timeValue dateOf a))

/-- The claim-side description of the unsorted result: the parsable entries of
the three visited files, in order, restricted to the age window. -/
def recentCandidates (dateOf : String → Option Int) (files : LogFiles)
    (now : Int) (hours : ℚ) : List LogEntry :=
  ((List.range 3).flatMap fun (i : ℕ) =>
    ((files (dayIndex (now - (i : Int) * 86400000))).getD []).filterMap id).filter
    (keepRecent dateOf now hours)

/-! ## Dynamically-typed response payloads (logger.js logRequest) -/

/-- A JavaScript value as inspected by the usage recorder.  Numbers are
rationals (NaN never arises in the inspected positions). -/
inductive JsVal where
  | undefined
  | null
  | bool (b : Bool)
  | num (q : ℚ)
  | str (s : String)
  | obj (fields : List (String × JsVal))
  | arr (elems : List JsVal)

/-- JS truthiness. -/
def truthy : JsVal → Bool
  | .undefined => false
  | .null => false
  | .bool b => b
  | .num q => decide (q ≠ 0)
  | .str s => decide (s ≠ "")
  | .obj _ => true
  | .arr _ => true

/-- Own-field lookup in an object field list. -/
def lookupField : List (String × JsVal) → String → JsVal
  | [], _ => .undefined
  | (k, v) :: rest, key => if k = key then v else lookupField rest key

/-- JS property access v.k on the payload values the recorder inspects: a
field of an object, undefined on a primitive (the recorder only dereferences
null or undefined behind optional chains or truthiness guards). -/
def getField : JsVal → String → JsVal
  | .obj fields, key => lookupField fields key
  | _, _ => .undefined

/-- Whether an object payload carries the named top-level field at all. -/
def hasOwnField : JsVal → String → Bool
  | .obj fields, key => fields.any fun kv => kv.1 == key
  | _, _ => false

/-- Optional-chained access v?.k: null and undefined short-circuit. -/
def optField (v : JsVal) (key : String) : JsVal :=
  match v with
  | .undefined => .undefined
  | .null => .undefined
  | w => getField w key

/-- JS `v || d` on payload values. -/
def jsOrVal (v d : JsVal) : JsVal :=
  if truthy v then v else d

/-- The raw token triple of a constructed log entry; the code copies whatever
truthy values the payload carries, so the fields stay dynamically typed. -/
structure RawTokens where
  prompt : JsVal
  completion : JsVal
  total : JsVal

/-- A log entry as constructed by logger.js logRequest, before serialization.
The cost field is none when the JS arithmetic would produce NaN, namely when
the usage object is truthy but its token fields are not numbers. -/
structure RawLogEntry where
  timestamp : String
  userId : String
  endpoint : String
  provider : String
  model : Option String
  tokens : RawTokens
  cost : Option ℚ
  success : Bool
  error : JsVal

/-- The cost of a constructed entry: calculateCost over the payload usage
object, which returns 0 when that object is falsy and computes NaN (none)
when its token fields are not numbers. -/
def entryCost (model : Option String) (provider : String) (d : JsVal) : Option ℚ :=
  let u := optField d "usage"
  if truthy u then
    match getField u "prompt_tokens", getField u "completion_tokens" with
    | .num p, .num c => some (calculateCost model (some ⟨p, c⟩) provider)
    | _, _ => none
  else some 0

/-- logger.js logRequest: the entry built from one observed response payload. -/
def buildLogEntry (timestamp userId endpoint : String) (model : Option String)
    (responseData : JsVal) : RawLogEntry :=
  let provider := detectProvider endpoint model
  { timestamp := timestamp
  , userId := userId
  , endpoint := endpoint
  , provider := provider
  , model := model
  , tokens :=
      { prompt := jsOrVal (optField (optField responseData "usage") "prompt_tokens") (.num 0)
      , completion := jsOrVal (optField (optField responseData "usage") "completion_tokens") (.num 0)
      , total := jsOrVal (optField (optField responseData "usage") "total_tokens") (.num 0) }
  , cost := entryCost model provider responseData
  , success := truthy responseData && ! truthy (getField responseData "error")
  , error := jsOrVal (optField (optField responseData "error") "message") .null }

/-! ## Anthropic response translation (server.js, POST /api/anthropic/messages) -/

/-- One Anthropic output content block. -/
structure AnthropicBlock where
  text : Option String
deriving Repr, DecidableEq

/-- Anthropic usage counts. -/
structure AnthropicUsage where
  input_tokens : Option ℚ
  output_tokens : Option ℚ
deriving Repr, DecidableEq

/-- The Anthropic response body fields read by the handler. -/
structure AnthropicResponseData where
  id : String
  model : String
  content : List AnthropicBlock
  stop_reason : Option String
  usage : Option AnthropicUsage
deriving Repr, DecidableEq

/-- The JsVal image of an optional string, as it would appear in the JSON the
handler sends back (an absent provider value stays undefined). -/
def jsOfOptStr : Option String → JsVal
  | some s => .str s
  | none => .undefined

/-- server.js transformedResponse for the Anthropic route, as the payload the
logging middleware observes: OpenAI-shaped object whose usage block maps
input_tokens and output_tokens with falsy defaults and computes the total as
their sum, and whose finish reason maps end_turn to stop and passes every
other stop reason through. -/
def anthropicTransformedPayload (created : ℚ) (r : AnthropicResponseData) : JsVal :=
  .obj
    [ ("id", .str r.id)
    , ("object", .str "chat.completion")
    , ("created", .num created)
    , ("model", .str r.model)
    , ("choices", .arr
        [ .obj
            [ ("index", .num 0)
            , ("message", .obj
                [ ("role", .str "assistant")
                , ("content", .str (jsOrStr ((r.content.head?).bind fun b => b.text) "")) ])
            , ("finish_reason",
                if r.stop_reason = some "end_turn" then .str "stop"
                else jsOfOptStr r.stop_reason) ] ])
    , ("usage", .obj
        [ ("prompt_tokens", .num (jsOrQ (r.usage.bind fun u => u.input_tokens) 0))
        , ("completion_tokens", .num (jsOrQ (r.usage.bind fun u => u.output_tokens) 0))
        , ("total_tokens", .num (jsOrQ (r.usage.bind fun u => u.input_tokens) 0
            + jsOrQ (r.usage.bind fun u => u.output_tokens) 0)) ]) ]

/-! ## Concrete inputs used by the counterexamples and witnesses -/

/-- A request body whose message list carries a system-role message while the
top-level system field is absent. -/
def c1Body : AnthropicBody :=
  { model := none
  , max_tokens := none
  , messages := [⟨"system", .str "You are helpful."⟩, ⟨"user", .str "Hi"⟩]
  , system := none }

/-- A Gemini-bound message list whose system message precedes an assistant
message, so the first user message is not the first translated entry. -/
def c2Msgs : List ChatMessage :=
  [⟨"system", .str "S"⟩, ⟨"assistant", .str "A"⟩, ⟨"user", .str "Hi"⟩]

/-- A fixed reference instant in epoch milliseconds. -/
def c5Now : Int := 1700000000000

/-- A log entry timestamped 10 hours before the reference instant, with the
timestamp written as the decimal millisecond value. -/
def c5e10 : LogEntry :=
  { timestamp := "1699964000000"
  , userId := "u1"
  , endpoint := "/api/chat/completions"
  , provider := "openai"
  , model := "gpt-4o"
  , tokens := ⟨1, 2, 3⟩
  , cost := 0
  , success := true
  , error := none }

/-- A log entry timestamped 4 days (96 hours) before the reference instant. -/
def c5e96 : LogEntry :=
  { timestamp := "1699654400000"
  , userId := "u1"
  , endpoint := "/api/chat/completions"
  , provider := "openai"
  , model := "gpt-4o"
  , tokens := ⟨1, 2, 3⟩
  , cost := 0
  , success := true
  , error := none }

/-- Timestamp parsing for the fixtures: the two timestamp strings denote the
corresponding epoch-millisecond instants, anything else is an invalid date. -/
def c5DateOf : String → Option Int := fun s =>
  if s = "1699964000000" then some 1699964000000
  else if s = "1699654400000" then some 1699654400000
  else none

/-- The stored daily files: the 10-hour-old entry sits in the file of its own
day (together with one unparsable line), the 4-day-old entry in the file of
its own day, and no other file exists. -/
def c5Files : LogFiles := fun d =>
  if d = 19675 then some [some c5e10, none]
  else if d = 19671 then some [some c5e96]
  else none

/-- Two log entries used to exercise the summary update. -/
def c4e1 : LogEntry :=
  { timestamp := "2025-01-01T00:00:00.000Z"
  , userId := "u1"
  , endpoint := "/api/chat/completions"
  , provider := "openai"
  , model := "gpt-4o"
  , tokens := ⟨3, 7, 10⟩
  , cost := 1/2
  , success := true
  , error := none }

/-- Second summary-update entry, on another provider route. -/
def c4e2 : LogEntry :=
  { timestamp := "2025-01-02T00:00:00.000Z"
  , userId := "u1"
  , endpoint := "/api/anthropic/messages"
  , provider := "anthropic"
  , model := "claude-3-haiku-20240307"
  , tokens := ⟨8, 12, 20⟩
  , cost := 1
  , success := true
  , error := none }

/-- A payload whose reported total token count is not the sum of its prompt
and completion counts. -/
def c6Payload : JsVal :=
  .obj [("usage", .obj
    [ ("prompt_tokens", .num 1)
    , ("completion_tokens", .num 2)
    , ("total_tokens", .num 5) ])]

/-- A payload whose reported counts are consistent. -/
def c6ConsistentPayload : JsVal :=
  .obj [("usage", .obj
    [ ("prompt_tokens", .num 3)
    , ("completion_tokens", .num 4)
    , ("total_tokens", .num 7) ])]

/-- A Gemini-style candidate response blocked for safety. -/
def c8Safety : GoogleResponse :=
  { candidates := some [{ content := none, finishReason := some "SAFETY" }]
  , usageMetadata := none }

/-- A payload that carries a top-level error field whose value is null. -/
def c10Payload : JsVal := .obj [("error", .null)]

/-- An upstream error body passed through verbatim. -/
def c10ErrBody : JsVal :=
  .obj [("error", .obj [("message", .str "Rate limit exceeded")])]

/-- A payload with no error field at all. -/
def c10OkBody : JsVal := .obj [("choices", .arr [])]

/-! ## Theorems -/

/-- C1 counterexample: on a body whose message list holds a system-role
message and whose top-level system field is absent, the translated Anthropic
payload still contains that system-role message in its message list and its
system field is absent — the translation does not extract system messages,
contradicting the claim. -/
theorem anthropic_system_extraction_counterexample :
    (anthropicRequest c1Body).system = none ∧
    ChatMessage.mk "system" (.str "You are helpful.") ∈ (anthropicRequest c1Body).messages := by
  exact ⟨rfl, by decide⟩

/-- C1 (amended): the Anthropic request translation passes the message list
through unchanged and sends the caller-supplied top-level system field as the
provider payload system field (absent when the caller supplies none); model
and max_tokens receive falsy-defaulted values.  System-role messages in the
message list are not extracted, concatenated, or removed. -/
theorem anthropicRequest_passthrough (b : AnthropicBody) :
    (anthropicRequest b).messages = b.messages ∧
    (anthropicRequest b).system = b.system ∧
    (anthropicRequest b).model = jsOrStr b.model "claude-sonnet-4-20250514" ∧
    (anthropicRequest b).max_tokens = jsOrQ b.max_tokens 4096 :=
  ⟨rfl, rfl, rfl, rfl⟩

/-- C3: calculateCost returns promptTokens/1e6 times the input rate plus
completionTokens/1e6 times the output rate, with the rates resolved as the
exact-model table entry when present, else the provider-level default, else
the global default which equals the OpenAI provider default; and the cost is
zero when no usage record is available. -/
theorem calculateCost_resolution (model : Option String) (provider : String) (u : Usage) :
    calculateCost model none provider = 0 ∧
    (∀ p, modelLookup model = some p →
      calculateCost model (some u) provider
        = u.prompt_tokens / 1000000 * p.input + u.completion_tokens / 1000000 * p.output) ∧
    (∀ q, modelLookup model = none → defaultPricing provider = some q →
      calculateCost model (some u) provider
        = u.prompt_tokens / 1000000 * q.input + u.completion_tokens / 1000000 * q.output) ∧
    (modelLookup model = none → defaultPricing provider = none →
      defaultPricing "openai" = some ⟨5, 15⟩ ∧
      calculateCost model (some u) provider
        = u.prompt_tokens / 1000000 * 5 + u.completion_tokens / 1000000 * 15) := by
  refine ⟨rfl, ?_, ?_, ?_⟩
  · intro p hp
    simp [calculateCost, hp]
  · intro q hm hq
    simp [calculateCost, hm, hq]
  · intro hm hq
    exact ⟨rfl, by simp [calculateCost, hm, hq]⟩

/-- C3 witness: a model present in the table is priced by its own row even
under a foreign provider, at concrete token counts. -/
theorem calculateCost_resolution_witness :
    calculateCost (some "gpt-4") (some ⟨1000000, 2000000⟩) "mystery-provider" = 150 := by
  have h := (calculateCost_resolution (some "gpt-4") "mystery-provider"
    ⟨1000000, 2000000⟩).2.1 ⟨30, 60⟩ (by decide)
  norm_num at h
  exact h

/-- C7 counterexample: the empty string is a provider identifier outside the
alias table, yet dispatch routes it to the OpenAI handler (which performs the
external call) instead of returning the bad-request error naming it — the
falsy identifier is replaced by the openai default before the switch. -/
theorem unifiedDispatch_counterexample :
    unifiedDispatch (some "") = .route "/api/chat/completions" ∧
    unifiedDispatch (some "") ≠ .badRequest ("Unknown provider: " ++ "") := by
  exact ⟨rfl, by decide⟩

/-- C7 (amended): for every nonempty provider identifier, dispatch resolves
it case-insensitively against the fixed alias table (openai; anthropic or
claude; google or gemini) and answers any identifier outside the table with a
bad-request naming the offending identifier, with no route taken and hence no
external call; an absent or empty identifier defaults to openai. -/
theorem unifiedDispatch_alias_table (p : String) (hp : p ≠ "") :
    (asciiLower p = "openai" → unifiedDispatch (some p) = .route "/api/chat/completions") ∧
    ((asciiLower p = "anthropic" ∨ asciiLower p = "claude") →
      unifiedDispatch (some p) = .route "/api/anthropic/messages") ∧
    ((asciiLower p = "google" ∨ asciiLower p = "gemini") →
      unifiedDispatch (some p) = .route "/api/google/generateContent") ∧
    (asciiLower p ∉ (["openai", "anthropic", "claude", "google", "gemini"] : List String) →
      unifiedDispatch (some p) = .badRequest ("Unknown provider: " ++ p)) ∧
    unifiedDispatch none = .route "/api/chat/completions" := by
  refine ⟨?_, ?_, ?_, ?_, rfl⟩
  · intro h
    simp [unifiedDispatch, jsOrStr, hp, h]
  · rintro (h | h) <;> simp [unifiedDispatch, jsOrStr, hp, h]
  · rintro (h | h) <;> simp [unifiedDispatch, jsOrStr, hp, h]
  · intro h
    simp only [List.mem_cons, List.not_mem_nil, or_false, not_or] at h
    obtain ⟨h1, h2, h3, h4, h5⟩ := h
    simp [unifiedDispatch, jsOrStr, hp, h1, h2, h3, h4, h5]

/-- C7 witness: dispatching the unknown provider foo yields the bad-request
error naming foo. -/
theorem unifiedDispatch_alias_table_witness :
    unifiedDispatch (some "foo") = .badRequest ("Unknown provider: " ++ "foo") :=
  (unifiedDispatch_alias_table "foo" (by decide)).2.2.2.1 (by decide)

/-- C8: the unified finish reason of a translated Google response is stop
exactly when the provider finishReason of the first candidate is the literal
STOP, and length for every other value, including safety or recitation blocks
and an absent value. -/
theorem googleFinishReason_mapping (r : GoogleResponse) :
    (googleCandFinish r = some "STOP" →
      (googleTransformedChoice r).finish_reason = "stop") ∧
    (googleCandFinish r ≠ some "STOP" →
      (googleTransformedChoice r).finish_reason = "length") := by
  constructor <;> intro h <;> simp [googleTransformedChoice, h]

/-- C8 witness: a safety-blocked candidate maps to length, and an empty
response (no candidates at all) also maps to length. -/
theorem googleFinishReason_mapping_witness :
    (googleTransformedChoice c8Safety).finish_reason = "length" ∧
    (googleTransformedChoice ⟨none, none⟩).finish_reason = "length" :=
  ⟨(googleFinishReason_mapping c8Safety).2 (by decide),
   (googleFinishReason_mapping ⟨none, none⟩).2 (by decide)⟩

/-- C9: the provider recorded for a logged call is determined solely by the
substring tests: anthropic when the endpoint contains anthropic or the model
contains claude; otherwise google when the endpoint contains google or the
model contains gemini; otherwise openai — and a call matching none of the
substrings whose model is absent from the pricing table is priced at the
OpenAI provider default rates. -/
theorem detectProvider_substring_rule (endpoint : String) (model : Option String) :
    (detectProvider endpoint model = "anthropic" ↔
      (jsIncludes endpoint "anthropic" || optIncludes model "claude") = true) ∧
    (detectProvider endpoint model = "google" ↔
      ((jsIncludes endpoint "anthropic" || optIncludes model "claude") = false ∧
       (jsIncludes endpoint "google" || optIncludes model "gemini") = true)) ∧
    (detectProvider endpoint model = "openai" ↔
      ((jsIncludes endpoint "anthropic" || optIncludes model "claude") = false ∧
       (jsIncludes endpoint "google" || optIncludes model "gemini") = false)) ∧
    ((jsIncludes endpoint "anthropic" || optIncludes model "claude") = false →
     (jsIncludes endpoint "google" || optIncludes model "gemini") = false →
     modelLookup model = none →
     ∀ u : Usage, calculateCost model (some u) (detectProvider endpoint model)
        = u.prompt_tokens / 1000000 * 5 + u.completion_tokens / 1000000 * 15) := by
  by_cases hA : (jsIncludes endpoint "anthropic" || optIncludes model "claude") = true
  · refine ⟨by simp [detectProvider, hA], ?_, ?_, ?_⟩
    · simp [detectProvider, hA]
    · simp [detectProvider, hA]
    · intro hA' _ _ _
      rw [hA] at hA'
      cases hA'
  · have hA' : (jsIncludes endpoint "anthropic" || optIncludes model "claude") = false :=
      Bool.eq_false_iff.mpr hA
    by_cases hB : (jsIncludes endpoint "google" || optIncludes model "gemini") = true
    · refine ⟨by simp [detectProvider, hA', hB], by simp [detectProvider, hA', hB], ?_, ?_⟩
      · simp [detectProvider, hA', hB]
      · intro _ hB' _ _
        rw [hB] at hB'
        cases hB'
    · have hB' : (jsIncludes endpoint "google" || optIncludes model "gemini") = false :=
        Bool.eq_false_iff.mpr hB
      refine ⟨by simp [detectProvider, hA', hB'], by simp [detectProvider, hA', hB'],
        by simp [detectProvider, hA', hB'], ?_⟩
      intro _ _ hml u
      simp [detectProvider, hA', hB', calculateCost, hml, defaultPricing]

/-- C9 witness: a call with an unmatched endpoint and an unmatched model
outside the pricing table is classified openai and priced at the OpenAI
default rates, at concrete token counts. -/
theorem detectProvider_substring_rule_witness :
    calculateCost (some "my-model") (some ⟨2000000, 1000000⟩)
      (detectProvider "/api/chat/completions" (some "my-model")) = 25 := by
  have h := (detectProvider_substring_rule "/api/chat/completions"
    (some "my-model")).2.2.2 (by decide) (by decide) (by decide) ⟨2000000, 1000000⟩
  norm_num at h
  exact h

/-- Once the outer contents list is nonempty the item loop never merges and
never touches the system prompt: it produces the plain part translation. -/
theorem geminiItemsLoop_plain (isUser : Bool) (items : List ContentItem) :
    ∀ (sysP : MsgContent) (parts : List GeminiPart),
      geminiItemsLoop isUser false items sysP parts
        = (parts ++ geminiPlainParts items, sysP) := by
  induction items with
  | nil => intro sysP parts; simp [geminiItemsLoop, geminiPlainParts]
  | cons item rest ih =>
    intro sysP parts
    cases item with
    | text t => simp [geminiItemsLoop, geminiPlainParts, ih]
    | image url =>
      cases h : parseDataUrl url with
      | some md =>
        cases md with
        | mk mime dat => simp [geminiItemsLoop, geminiPlainParts, h, ih]
      | none => simp [geminiItemsLoop, geminiPlainParts, h, ih]
    | other => simp [geminiItemsLoop, geminiPlainParts, ih]

/-- Once the contents accumulator is nonempty the message loop appends the
plain translation of the remaining messages: the system prompt is never
applied to any later message. -/
theorem geminiLoop_plain (msgs : List ChatMessage) :
    ∀ (sysP : MsgContent) (c : GeminiContent) (cs : List GeminiContent),
      geminiLoop msgs sysP (c :: cs) = (c :: cs) ++ geminiPlain msgs := by
  induction msgs with
  | nil => intro sysP c cs; simp [geminiLoop, geminiPlain]
  | cons msg rest ih =>
    intro sysP c cs
    obtain ⟨mrole, mcontent⟩ := msg
    by_cases hsys : mrole = "system"
    · subst hsys
      simp [geminiLoop, geminiPlain, ih]
    · cases mcontent with
      | str s =>
        simp only [geminiLoop, geminiPlain, if_neg hsys, List.isEmpty_cons,
          Bool.and_false, Bool.false_eq_true, if_false, List.cons_append]
        rw [ih]
        simp
      | parts items =>
        simp only [geminiLoop, geminiPlain, if_neg hsys, List.isEmpty_cons]
        rw [geminiItemsLoop_plain]
        simp only [List.nil_append, List.cons_append]
        rw [ih]
        simp

/-- Every content entry the loop emits carries the user or the model role. -/
theorem geminiLoop_roles (msgs : List ChatMessage) :
    ∀ (sysP : MsgContent) (contents : List GeminiContent),
      (∀ x ∈ contents, x.role = "user" ∨ x.role = "model") →
      ∀ x ∈ geminiLoop msgs sysP contents, x.role = "user" ∨ x.role = "model" := by
  induction msgs with
  | nil => intro sysP contents h; simpa [geminiLoop] using h
  | cons msg rest ih =>
    intro sysP contents h
    obtain ⟨mrole, mcontent⟩ := msg
    have hpush : ∀ (role : String), role = "user" ∨ role = "model" →
        ∀ parts : List GeminiPart,
        ∀ y ∈ contents ++ [(⟨role, parts⟩ : GeminiContent)],
          y.role = "user" ∨ y.role = "model" := by
      intro role hrole parts y hy
      rcases List.mem_append.mp hy with hy | hy
      · exact h y hy
      · rcases List.mem_singleton.mp hy with rfl
        exact hrole
    by_cases hsys : mrole = "system"
    · subst hsys
      simpa [geminiLoop] using ih _ _ h
    · by_cases ha : mrole = "assistant"
      · subst ha
        cases mcontent with
        | str s =>
          simp [geminiLoop]
          exact fun x hx => ih _ _ (hpush "model" (Or.inr rfl) _) x hx
        | parts items =>
          simp [geminiLoop]
          exact fun x hx => ih _ _ (hpush "model" (Or.inr rfl) _) x hx
      · cases mcontent with
        | str s =>
          simp [geminiLoop, hsys, ha]
          split
          · exact fun x hx => ih _ _ (hpush "user" (Or.inl rfl) _) x hx
          · exact fun x hx => ih _ _ (hpush "user" (Or.inl rfl) _) x hx
        | parts items =>
          simp [geminiLoop, hsys, ha]
          exact fun x hx => ih _ _ (hpush "user" (Or.inl rfl) _) x hx

/-- C2 counterexample: a list with a system message, an assistant message and
a user message.  The translation drops the system text entirely instead of
merging it into the first text part of the first user-role message: the user
entry reads Hi, not the claimed prefixed text. -/
theorem gemini_system_merge_counterexample :
    transformMessagesToGeminiFormat c2Msgs
      = [⟨"model", [.text "A"]⟩, ⟨"user", [.text "Hi"]⟩] ∧
    (∀ c ∈ transformMessagesToGeminiFormat c2Msgs, ∀ p ∈ c.parts,
      p ≠ GeminiPart.text ("S" ++ "\n\n" ++ "Hi")) := by
  constructor
  · decide
  · decide

/-- C2 (amended): the Gemini translation never emits a separate system entry
(every entry is user- or model-role), and the system prompt is merged,
prefixed with a blank-line separator, into the first text part of the first
user-role message only when that message is the first non-system message of
the list, after which the prompt is cleared and the remaining messages are
translated plainly, so it is never reapplied; a system prompt whose first
following non-system message is not user-role is dropped. -/
theorem gemini_system_merge (S u : String) (rest : List ChatMessage) (hS : S ≠ "") :
    transformMessagesToGeminiFormat
        (⟨"system", .str S⟩ :: ⟨"user", .str u⟩ :: rest)
      = ⟨"user", [.text (S ++ "\n\n" ++ u)]⟩ :: geminiPlain rest ∧
    (∀ msgs : List ChatMessage, ∀ c ∈ transformMessagesToGeminiFormat msgs,
      c.role = "user" ∨ c.role = "model") := by
  constructor
  · simp [transformMessagesToGeminiFormat, geminiLoop, contentTruthy, hS,
      contentToString, geminiLoop_plain]
  · intro msgs c hc
    exact geminiLoop_roles msgs _ [] (by simp) c hc

/-- C2 witness: the spec example — system Be terse. followed by user Hi
yields exactly one user entry whose text is the prefixed concatenation. -/
theorem gemini_system_merge_witness :
    transformMessagesToGeminiFormat
        [⟨"system", .str "Be terse."⟩, ⟨"user", .str "Hi"⟩]
      = [⟨"user", [.text ("Be terse." ++ "\n\n" ++ "Hi")]⟩] := by
  have h := (gemini_system_merge "Be terse." "Hi" [] (by decide)).1
  simpa [geminiPlain] using h

/-- Folding the increment block over a list of entries accumulates each field
of the summary: requests by the length, tokens and cost by the sums, lastSeen
by the final timestamp, counters by the per-key counts. -/
theorem foldl_applyEntry_fields (entries : List LogEntry) :
    ∀ s0 : UserSummary,
      (entries.foldl applyEntry s0).totalRequests = s0.totalRequests + entries.length ∧
      (entries.foldl applyEntry s0).totalTokens
        = s0.totalTokens + (entries.map fun e => e.tokens.total).sum ∧
      (entries.foldl applyEntry s0).totalCost
        = s0.totalCost + (entries.map fun e => e.cost).sum ∧
      (entries.foldl applyEntry s0).lastSeen
        = (match entries.getLast? with
           | some l => some l.timestamp
           | none => s0.lastSeen) ∧
      (∀ k, (entries.foldl applyEntry s0).endpointCounts k
        = s0.endpointCounts k + entries.countP (fun e => e.endpoint == k)) ∧
      (∀ k, (entries.foldl applyEntry s0).modelCounts k
        = s0.modelCounts k + entries.countP (fun e => e.model == k)) ∧
      (∀ k, (entries.foldl applyEntry s0).providerCounts k
        = s0.providerCounts k + entries.countP (fun e => e.provider == k)) := by
  induction entries with
  | nil => intro s0; simp [List.countP_nil]
  | cons e rest ih =>
    intro s0
    rw [List.foldl_cons]
    obtain ⟨h1, h2, h3, h4, h5, h6, h7⟩ := ih (applyEntry s0 e)
    refine ⟨?_, ?_, ?_, ?_, ?_, ?_, ?_⟩
    · rw [h1]
      simp only [applyEntry, List.length_cons]
      omega
    · rw [h2]
      simp only [applyEntry, List.map_cons, List.sum_cons]
      ring
    · rw [h3]
      simp only [applyEntry, List.map_cons, List.sum_cons]
      ring
    · rw [h4]
      rcases rest with _ | ⟨r, rs⟩
      · simp [applyEntry]
      · rw [List.getLast?_cons_cons]
        rcases hfin : (r :: rs).getLast? with _ | l
        · rw [List.getLast?_eq_none_iff] at hfin
          exact (List.cons_ne_nil r rs hfin).elim
        · rfl
    · intro k
      rw [h5 k, List.countP_cons]
      simp only [applyEntry, bump]
      by_cases hk : k = e.endpoint
      · subst hk
        simp
        omega
      · have hbeq : (e.endpoint == k) = false := by
          simp [Ne.symm hk]
        simp [hk, hbeq]
    · intro k
      rw [h6 k, List.countP_cons]
      simp only [applyEntry, bump]
      by_cases hk : k = e.model
      · subst hk
        simp
        omega
      · have hbeq : (e.model == k) = false := by
          simp [Ne.symm hk]
        simp [hk, hbeq]
    · intro k
      rw [h7 k, List.countP_cons]
      simp only [applyEntry, bump]
      by_cases hk : k = e.provider
      · subst hk
        simp
        omega
      · have hbeq : (e.provider == k) = false := by
          simp [Ne.symm hk]
        simp [hk, hbeq]

/-- Once the user is stored, the remaining sequential updates fold the
increment block over the stored summary. -/
theorem updateAll_some (entries : List LogEntry) :
    ∀ (st : Summaries) (userId : String) (s0 : UserSummary),
      st userId = some s0 →
      updateAll st userId entries userId = some (entries.foldl applyEntry s0) := by
  induction entries with
  | nil => intro st userId s0 h; simpa [updateAll] using h
  | cons e rest ih =>
    intro st userId s0 h
    rw [updateAll, List.foldl_cons, List.foldl_cons]
    have hstep : updateUserSummary st userId e userId = some (applyEntry s0 e) := by
      simp [updateUserSummary, h]
    exact ih (updateUserSummary st userId e) userId (applyEntry s0 e) hstep

/-- C4: N sequential non-overlapping summary updates for a user unseen in the
initial store yield a stored summary whose totalRequests is N, whose
totalTokens and totalCost are the exact sums over the entries, whose lastSeen
is the last entry's timestamp, and whose endpoint, model and provider
counters equal the number of entries carrying each key. -/
theorem updateUserSummary_sequential (userId : String) (entries : List LogEntry)
    (st : Summaries) (h0 : st userId = none) (hne : entries ≠ []) :
    ∃ s, updateAll st userId entries userId = some s ∧
      s.totalRequests = entries.length ∧
      s.totalTokens = (entries.map fun e => e.tokens.total).sum ∧
      s.totalCost = (entries.map fun e => e.cost).sum ∧
      (∃ l, entries.getLast? = some l ∧ s.lastSeen = some l.timestamp) ∧
      (∀ k, s.endpointCounts k = entries.countP fun e => e.endpoint == k) ∧
      (∀ k, s.modelCounts k = entries.countP fun e => e.model == k) ∧
      (∀ k, s.providerCounts k = entries.countP fun e => e.provider == k) := by
  rcases entries with _ | ⟨e, rest⟩
  · cases hne rfl
  · have hstep : updateUserSummary st userId e userId
        = some (applyEntry (freshSummary e) e) := by
      simp [updateUserSummary, h0]
    have hall : updateAll st userId (e :: rest) userId
        = some ((e :: rest).foldl applyEntry (freshSummary e)) := by
      rw [updateAll, List.foldl_cons]
      exact updateAll_some rest (updateUserSummary st userId e) userId
        (applyEntry (freshSummary e) e) hstep
    obtain ⟨h1, h2, h3, h4, h5, h6, h7⟩ :=
      foldl_applyEntry_fields (e :: rest) (freshSummary e)
    refine ⟨(e :: rest).foldl applyEntry (freshSummary e), hall, ?_, ?_, ?_, ?_, ?_, ?_, ?_⟩
    · simpa [freshSummary] using h1
    · simpa [freshSummary] using h2
    · simpa [freshSummary] using h3
    · have hlast : (e :: rest).getLast?.isSome = true :=
        List.getLast?_isSome.mpr (by simp)
      rcases hsome : (e :: rest).getLast? with _ | l
      · rw [hsome] at hlast
        cases hlast
      · refine ⟨l, rfl, ?_⟩
        rw [h4, hsome]
    · intro k
      simpa [freshSummary] using h5 k
    · intro k
      simpa [freshSummary] using h6 k
    · intro k
      simpa [freshSummary] using h7 k

/-- C4 witness: two concrete sequential entries for a fresh user produce the
expected totals, lastSeen and counters. -/
theorem updateUserSummary_sequential_witness :
    ∃ s, updateAll (fun _ => none) "u1" [c4e1, c4e2] "u1" = some s ∧
      s.totalRequests = 2 ∧
      s.totalTokens = 30 ∧
      s.totalCost = 3/2 ∧
      s.lastSeen = some "2025-01-02T00:00:00.000Z" ∧
      s.endpointCounts "/api/chat/completions" = 1 ∧
      s.endpointCounts "/api/anthropic/messages" = 1 ∧
      s.modelCounts "gpt-4o" = 1 ∧
      s.providerCounts "anthropic" = 1 := by
  obtain ⟨s, hall, h1, h2, h3, ⟨l, hl, hl2⟩, h5, h6, h7⟩ :=
    updateUserSummary_sequential "u1" [c4e1, c4e2] (fun _ => none) rfl (by simp)
  refine ⟨s, hall, ?_, ?_, ?_, ?_, ?_, ?_, ?_, ?_⟩
  · simpa using h1
  · rw [h2]
    simp [c4e1, c4e2]
    norm_num
  · rw [h3]
    simp [c4e1, c4e2]
    norm_num
  · have hgl : [c4e1, c4e2].getLast? = some c4e2 := rfl
    rw [hgl] at hl
    injection hl with hx
    rw [hl2, ← hx]
    rfl
  · rw [h5]
    decide
  · rw [h5]
    decide
  · rw [h6]
    decide
  · rw [h7]
    decide

/-- The per-file line loop pushes, onto the accumulator, exactly the parsable
lines that pass the filter, in file order. -/
theorem collectDay_eq (keep : LogEntry → Bool) :
    ∀ (lines : List (Option LogEntry)) (logs : List LogEntry),
      collectDay keep lines logs = logs ++ (lines.filterMap id).filter keep := by
  intro lines
  induction lines with
  | nil => intro logs; simp [collectDay]
  | cons o rest ih =>
    intro logs
    cases o with
    | none => simp [collectDay, ih]
    | some e =>
      cases hk : keep e <;> simp [collectDay, hk, ih]

/-- Folding the per-day visit over any index list collects, in order, the
filtered parsable lines of each existing file. -/
theorem collect_fold_eq (keep : LogEntry → Bool) (files : LogFiles) (dayOf : ℕ → Int) :
    ∀ (is : List ℕ) (logs : List LogEntry),
      is.foldl (fun logs i => visitDay keep files (dayOf i) logs) logs
      = logs ++ (is.flatMap fun i => ((files (dayOf i)).getD []).filterMap id).filter keep := by
  intro is
  induction is with
  | nil => intro logs; simp
  | cons i rest ih =>
    intro logs
    simp only [List.foldl_cons]
    cases hf : files (dayOf i) with
    | none =>
      have hv : visitDay keep files (dayOf i) logs = logs := by
        simp [visitDay, hf]
      rw [hv, ih]
      simp [List.flatMap_cons, hf, List.filter_append]
    | some lines =>
      have hv : visitDay keep files (dayOf i) logs
          = logs ++ (lines.filterMap id).filter keep := by
        simp [visitDay, hf, collectDay_eq]
      rw [hv, ih]
      simp [List.flatMap_cons, hf, List.filter_append, List.append_assoc]

/-- getRecentLogs is the descending sort of the window candidates. -/
theorem getRecentLogs_eq_mergeSort (dateOf : String → Option Int) (files : LogFiles)
    (now : Int) (hours : ℚ) :
    getRecentLogs dateOf files now hours
      = (recentCandidates dateOf files now hours).mergeSort
          (fun a b => decide (timeValue dateOf b ≤ timeValue dateOf a)) := by
  unfold getRecentLogs
  rw [collect_fold_eq (keepRecent dateOf now hours) files
    (fun i => dayIndex (now - (i : Int) * 86400000)) (List.range 3) []]
  rw [List.nil_append]
  rfl

/-- Membership in the recent-log result: exactly the entries that some one of
the three visited files carries as a parsable line and that pass the age
filter. -/
theorem getRecentLogs_mem (dateOf : String → Option Int) (files : LogFiles)
    (now : Int) (hours : ℚ) (e : LogEntry) :
    e ∈ getRecentLogs dateOf files now hours ↔
      ∃ i : ℕ, i < 3 ∧ ∃ lines,
        files (dayIndex (now - (i : Int) * 86400000)) = some lines ∧
        some e ∈ lines ∧ keepRecent dateOf now hours e = true := by
  rw [getRecentLogs_eq_mergeSort]
  rw [(List.mergeSort_perm (recentCandidates dateOf files now hours) _).mem_iff]
  constructor
  · intro h
    rw [recentCandidates, List.mem_filter] at h
    obtain ⟨hmem, hkeep⟩ := h
    rw [List.mem_flatMap] at hmem
    obtain ⟨i, hi, hmem⟩ := hmem
    rw [List.mem_range] at hi
    rcases hfl : files (dayIndex (now - (i : Int) * 86400000)) with _ | lines
    · rw [hfl] at hmem
      simp at hmem
    · rw [hfl] at hmem
      simp only [Option.getD_some] at hmem
      rw [List.mem_filterMap] at hmem
      obtain ⟨o, ho, hoe⟩ := hmem
      simp only [id] at hoe
      subst hoe
      exact ⟨i, hi, lines, hfl, ho, hkeep⟩
  · rintro ⟨i, hi, lines, hfl, hin, hkeep⟩
    rw [recentCandidates, List.mem_filter]
    refine ⟨?_, hkeep⟩
    rw [List.mem_flatMap]
    refine ⟨i, List.mem_range.mpr hi, ?_⟩
    rw [hfl]
    simp only [Option.getD_some]
    rw [List.mem_filterMap]
    exact ⟨some e, hin, rfl⟩

/-- C5: getRecentLogs reads only the files of today and the two preceding UTC
calendar days, returns exactly the parsable entries of those files whose age
is at most the requested hours — unparsable lines are skipped — sorted by
timestamp descending; and on the fixtures, one hour excludes the 10-hour-old
entry, 24 hours includes it, and 100 hours still excludes the 4-day-old entry
because its file lies outside the 3-day window. -/
theorem getRecentLogs_window (dateOf : String → Option Int) (files : LogFiles)
    (now : Int) (hours : ℚ) :
    List.Pairwise (fun a b => timeValue dateOf b ≤ timeValue dateOf a)
      (getRecentLogs dateOf files now hours) ∧
    (getRecentLogs dateOf files now hours).Perm
      (recentCandidates dateOf files now hours) ∧
    (∀ e, e ∈ getRecentLogs dateOf files now hours ↔
      ∃ i : ℕ, i < 3 ∧ ∃ lines,
        files (dayIndex (now - (i : Int) * 86400000)) = some lines ∧
        some e ∈ lines ∧ keepRecent dateOf now hours e = true) ∧
    c5e10 ∉ getRecentLogs c5DateOf c5Files c5Now 1 ∧
    c5e10 ∈ getRecentLogs c5DateOf c5Files c5Now 24 ∧
    c5e96 ∉ getRecentLogs c5DateOf c5Files c5Now 100 := by
  have htrans : ∀ a b c : LogEntry,
      decide (timeValue dateOf b ≤ timeValue dateOf a) = true →
      decide (timeValue dateOf c ≤ timeValue dateOf b) = true →
      decide (timeValue dateOf c ≤ timeValue dateOf a) = true := by
    intro a b c hab hbc
    rw [decide_eq_true_iff] at hab hbc ⊢
    omega
  have htotal : ∀ a b : LogEntry,
      (decide (timeValue dateOf b ≤ timeValue dateOf a)
        || decide (timeValue dateOf a ≤ timeValue dateOf b)) = true := by
    intro a b
    rcases Int.le_total (timeValue dateOf b) (timeValue dateOf a) with h | h <;>
      simp [h]
  have hday0 : dayIndex (c5Now - ((0 : ℕ) : Int) * 86400000) = 19675 := by decide
  have hday1 : dayIndex (c5Now - ((1 : ℕ) : Int) * 86400000) = 19674 := by decide
  have hday2 : dayIndex (c5Now - ((2 : ℕ) : Int) * 86400000) = 19673 := by decide
  have hkeep1 : keepRecent c5DateOf c5Now 1 c5e10 = false := by
    unfold keepRecent
    rw [show c5DateOf c5e10.timestamp = some 1699964000000 from by decide]
    show decide ((((c5Now - 1699964000000 : Int) : ℚ)) / 3600000 ≤ (1 : ℚ)) = false
    rw [decide_eq_false_iff_not]
    norm_num [c5Now]
  have hkeep24 : keepRecent c5DateOf c5Now 24 c5e10 = true := by
    unfold keepRecent
    rw [show c5DateOf c5e10.timestamp = some 1699964000000 from by decide]
    show decide ((((c5Now - 1699964000000 : Int) : ℚ)) / 3600000 ≤ (24 : ℚ)) = true
    rw [decide_eq_true_eq]
    norm_num [c5Now]
  refine ⟨?_, ?_, fun e => getRecentLogs_mem dateOf files now hours e, ?_, ?_, ?_⟩
  · rw [getRecentLogs_eq_mergeSort]
    exact (List.sorted_mergeSort htrans htotal
      (recentCandidates dateOf files now hours)).imp fun h => of_decide_eq_true h
  · rw [getRecentLogs_eq_mergeSort]
    exact List.mergeSort_perm _ _
  · intro hmem
    obtain ⟨i, hi, lines, hfl, hin, hkeep⟩ :=
      (getRecentLogs_mem c5DateOf c5Files c5Now 1 c5e10).mp hmem
    interval_cases i
    · rw [hkeep1] at hkeep
      cases hkeep
    · rw [hday1] at hfl
      simp [c5Files] at hfl
    · rw [hday2] at hfl
      simp [c5Files] at hfl
  · refine (getRecentLogs_mem c5DateOf c5Files c5Now 24 c5e10).mpr
      ⟨0, by omega, [some c5e10, none], ?_, by simp, hkeep24⟩
    rw [hday0]
    simp [c5Files]
  · intro hmem
    obtain ⟨i, hi, lines, hfl, hin, hkeep⟩ :=
      (getRecentLogs_mem c5DateOf c5Files c5Now 100 c5e96).mp hmem
    interval_cases i
    · rw [hday0] at hfl
      simp [c5Files] at hfl
      subst hfl
      exact absurd hin (by decide)
    · rw [hday1] at hfl
      simp [c5Files] at hfl
    · rw [hday2] at hfl
      simp [c5Files] at hfl

/-- The falsy-or-zero copy of a numeric payload value is the value itself. -/
theorem jsOrVal_num_zero (x : ℚ) : jsOrVal (.num x) (.num 0) = .num x := by
  by_cases h : x = 0 <;> simp [jsOrVal, truthy, h]

/-- C6 counterexample: a payload reporting prompt 1, completion 2, total 5
produces an entry whose total token count is 5, not the sum 3 — the recorder
copies the payload total instead of computing the sum. -/
theorem logEntry_total_counterexample :
    (buildLogEntry "2025-01-01T00:00:00.000Z" "u1" "/api/chat/completions"
      (some "gpt-4o") c6Payload).tokens.prompt = .num 1 ∧
    (buildLogEntry "2025-01-01T00:00:00.000Z" "u1" "/api/chat/completions"
      (some "gpt-4o") c6Payload).tokens.completion = .num 2 ∧
    (buildLogEntry "2025-01-01T00:00:00.000Z" "u1" "/api/chat/completions"
      (some "gpt-4o") c6Payload).tokens.total = .num 5 ∧
    (5 : ℚ) ≠ 1 + 2 := by
  refine ⟨?_, ?_, ?_, by norm_num⟩ <;>
    simp [buildLogEntry, c6Payload, optField, getField, lookupField, jsOrVal_num_zero]

/-- C6 (amended): the entry total token count is the payload total_tokens
value with a falsy default of zero, so the invariant total = prompt +
completion holds exactly when the payload reports consistent counts — in
particular for every payload produced by the proxy own Anthropic response
translation, which computes the total as the sum, and for every payload with
no usage object at all. -/
theorem logEntry_total_amended (ts uid ep : String) (model : Option String) (d : JsVal) :
    (buildLogEntry ts uid ep model d).tokens.total
      = jsOrVal (optField (optField d "usage") "total_tokens") (.num 0) ∧
    (∀ p c : ℚ,
      jsOrVal (optField (optField d "usage") "prompt_tokens") (.num 0) = .num p →
      jsOrVal (optField (optField d "usage") "completion_tokens") (.num 0) = .num c →
      jsOrVal (optField (optField d "usage") "total_tokens") (.num 0) = .num (p + c) →
      ∃ p2 c2 : ℚ,
        (buildLogEntry ts uid ep model d).tokens.prompt = .num p2 ∧
        (buildLogEntry ts uid ep model d).tokens.completion = .num c2 ∧
        (buildLogEntry ts uid ep model d).tokens.total = .num (p2 + c2)) ∧
    (∀ (r : AnthropicResponseData) (created : ℚ),
      ∃ p c : ℚ,
        (buildLogEntry ts uid ep model
          (anthropicTransformedPayload created r)).tokens.prompt = .num p ∧
        (buildLogEntry ts uid ep model
          (anthropicTransformedPayload created r)).tokens.completion = .num c ∧
        (buildLogEntry ts uid ep model
          (anthropicTransformedPayload created r)).tokens.total = .num (p + c)) ∧
    (optField d "usage" = .undefined →
      (buildLogEntry ts uid ep model d).tokens.prompt = .num 0 ∧
      (buildLogEntry ts uid ep model d).tokens.completion = .num 0 ∧
      (buildLogEntry ts uid ep model d).tokens.total = .num 0) := by
  refine ⟨rfl, ?_, ?_, ?_⟩
  · intro p c hp hc ht
    exact ⟨p, c, by simpa [buildLogEntry] using hp, by simpa [buildLogEntry] using hc,
      by simpa [buildLogEntry] using ht⟩
  · intro r created
    refine ⟨jsOrQ (r.usage.bind fun u => u.input_tokens) 0,
      jsOrQ (r.usage.bind fun u => u.output_tokens) 0, ?_, ?_, ?_⟩ <;>
      simp [buildLogEntry, anthropicTransformedPayload, optField, getField,
        lookupField, jsOrVal_num_zero]
  · intro h
    refine ⟨?_, ?_, ?_⟩ <;>
      · simp only [buildLogEntry]
        rw [h]
        rfl

/-- C6 witness: a payload with consistent counts 3, 4 and 7 yields an entry
whose total is the sum of its prompt and completion counts. -/
theorem logEntry_total_amended_witness :
    ∃ p c : ℚ,
      (buildLogEntry "t" "u" "/api/chat/completions" none
        c6ConsistentPayload).tokens.prompt = .num p ∧
      (buildLogEntry "t" "u" "/api/chat/completions" none
        c6ConsistentPayload).tokens.completion = .num c ∧
      (buildLogEntry "t" "u" "/api/chat/completions" none
        c6ConsistentPayload).tokens.total = .num (p + c) := by
  refine (logEntry_total_amended "t" "u" "/api/chat/completions" none
    c6ConsistentPayload).2.1 3 4 ?_ ?_ ?_
  · simp [c6ConsistentPayload, optField, getField, lookupField, jsOrVal_num_zero]
  · simp [c6ConsistentPayload, optField, getField, lookupField, jsOrVal_num_zero]
  · rw [show (3 + 4 : ℚ) = 7 from by norm_num]
    simp [c6ConsistentPayload, optField, getField, lookupField, jsOrVal_num_zero]

/-- Looking up a key that no field of the list carries yields undefined. -/
theorem lookupField_of_all_ne (k : String) :
    ∀ fields : List (String × JsVal),
      (fields.any fun kv => kv.1 == k) = false → lookupField fields k = .undefined := by
  intro fields
  induction fields with
  | nil => intro _; rfl
  | cons kv rest ih =>
    intro h
    rw [List.any_cons, Bool.or_eq_false_iff] at h
    obtain ⟨h1, h2⟩ := h
    rw [beq_eq_false_iff_ne] at h1
    simp [lookupField, h1, ih h2]

/-- Property access for a key the payload does not carry yields undefined. -/
theorem getField_of_not_hasOwn (d : JsVal) (k : String)
    (h : hasOwnField d k = false) : getField d k = .undefined := by
  cases d with
  | obj fields => exact lookupField_of_all_ne k fields h
  | undefined => rfl
  | null => rfl
  | bool b => rfl
  | num q => rfl
  | str s => rfl
  | arr elems => rfl

/-- C10 counterexample: the payload carrying a top-level error field whose
value is null is truthy and carries the error field, yet the recorder marks
it successful — the success test checks the field for truthiness, not for
presence. -/
theorem success_flag_counterexample :
    truthy c10Payload = true ∧
    hasOwnField c10Payload "error" = true ∧
    (buildLogEntry "t" "u" "/api/chat/completions" none c10Payload).success = true := by
  exact ⟨rfl, rfl, rfl⟩

/-- C10 (amended): the success flag is true exactly when the payload is
truthy and its top-level error field is absent or falsy; in particular any
truthy payload lacking an error field is logged as success.  When the error
message chain is truthy its value is recorded, otherwise the entry error is
null.  An upstream error body with a message is logged as a failed call with
that message; a payload without an error field is logged as success. -/
theorem success_flag_amended (ts uid ep : String) (model : Option String) (d : JsVal) :
    ((buildLogEntry ts uid ep model d).success = true ↔
      (truthy d = true ∧ truthy (getField d "error") = false)) ∧
    (truthy d = true → hasOwnField d "error" = false →
      (buildLogEntry ts uid ep model d).success = true) ∧
    (truthy (optField (optField d "error") "message") = true →
      (buildLogEntry ts uid ep model d).error
        = optField (optField d "error") "message") ∧
    (truthy (optField (optField d "error") "message") = false →
      (buildLogEntry ts uid ep model d).error = .null) ∧
    ((buildLogEntry ts uid ep model c10ErrBody).success = false ∧
      (buildLogEntry ts uid ep model c10ErrBody).error = .str "Rate limit exceeded") ∧
    (buildLogEntry ts uid ep model c10OkBody).success = true := by
  refine ⟨?_, ?_, ?_, ?_, ?_, ?_⟩
  · simp [buildLogEntry]
  · intro h1 h2
    simp only [buildLogEntry]
    rw [getField_of_not_hasOwn d "error" h2, h1]
    rfl
  · intro h
    simp [buildLogEntry, jsOrVal, h]
  · intro h
    simp [buildLogEntry, jsOrVal, h]
  · constructor
    · rfl
    · simp [buildLogEntry, c10ErrBody, optField, getField, lookupField, jsOrVal, truthy]
  · rfl

/-- C10 witness: a truthy payload with no error field is logged as success. -/
theorem success_flag_amended_witness :
    (buildLogEntry "t" "u" "/api/chat/completions" none
      (.obj [("id", .str "x")])).success = true :=
  (success_flag_amended "t" "u" "/api/chat/completions" none
    (.obj [("id", .str "x")])).2.1 rfl rfl

end Proxy
